import Mathlib

/-!
Verification of the nutrition5k training pipeline
(`src/train.py`, `src/nutrition5k/dataset.py`) via a shallow embedding.

Conventions of the embedding:
* Python floats appearing in the split arithmetic are modelled as `ℚ`.
* Python `int(x)` (truncation toward zero) is `pyInt`.
* A pandas dataframe index is a `List ℕ`; `random.shuffle` is modelled by
  taking the already-shuffled list as input.
* Fallible Python code is modelled in `Except PyError`.
-/

namespace Nutrition5k

/-- Python `int(q)`: truncation toward zero. -/
def pyInt (q : ℚ) : ℤ :=
  if 0 ≤ q then ⌊q⌋ else -⌊-q⌋

/-- `train_end = int(samples * split['train'])` in `split_dataframe`
(src/nutrition5k/dataset.py line 123). -/
def train_end (index : List ℕ) (ftrain : ℚ) : ℤ :=
  pyInt ((index.length : ℚ) * ftrain)

/-- `val_end = train_end + int(samples * split['validation'])`
(src/nutrition5k/dataset.py line 124). -/
def val_end (index : List ℕ) (ftrain fval : ℚ) : ℤ :=
  train_end index ftrain + pyInt ((index.length : ℚ) * fval)

/-- `split_dataframe` (src/nutrition5k/dataset.py lines 119-128) acting on the
(already shuffled) dataframe index.  The three results are the Python slices
`index[:train_end]`, `index[train_end:val_end]`, `index[val_end:]`
(for the nonnegative bounds arising from nonnegative fractions, Python slicing
is take/drop with clamping). -/
def split_dataframe (index : List ℕ) (ftrain fval : ℚ) :
    List ℕ × List ℕ × List ℕ :=
  (index.take (train_end index ftrain).toNat,
   (index.take (val_end index ftrain fval).toNat).drop (train_end index ftrain).toNat,
   index.drop (val_end index ftrain fval).toNat)

/-! ### train.py: dataset split and dataloaders -/

/-- The three phases of `train.py`'s `dataloaders` dict. -/
inductive Phase
  | train
  | val
  | test
  deriving DecidableEq, Repr

/-- `train_size = int(config['split']['train'] * n_videos)` (src/train.py line 47). -/
def train_size (n : ℕ) (f : ℚ) : ℕ :=
  (pyInt (f * n)).toNat

/-- `val_size = int(config['split']['validation'] * n_videos)` (src/train.py line 48). -/
def val_size (n : ℕ) (g : ℚ) : ℕ :=
  (pyInt (g * n)).toNat

/-- `torch.utils.data.random_split(dataset, [train_size, val_size, test_size])`
(src/train.py line 51): a random permutation of the indices is cut into three
consecutive chunks of the given lengths.  `perm` is the permutation drawn by
torch. -/
def random_split3 (perm : List ℕ) (trainSz valSz : ℕ) :
    List ℕ × List ℕ × List ℕ :=
  (perm.take trainSz, (perm.drop trainSz).take valSz, perm.drop (trainSz + valSz))

/-- The `dataloaders` dict of src/train.py lines 53-61, reduced to the index
list each loader iterates: `'train'` wraps `train_set`, `'val'` wraps
`val_set`, and `'test'` also wraps `val_set` (the source passes `val_set`,
not `test_set`, to the DataLoader stored under the `'test'` key). -/
def dataloaders_indices (perm : List ℕ) (f g : ℚ) : Phase → List ℕ :=
  fun phase =>
    let spl := random_split3 perm (train_size perm.length f) (val_size perm.length g)
    match phase with
    | .train => spl.1
    | .val => spl.2.1
    | .test => spl.2.1

/-- `torch.save(dataloaders['test'], ...)` (src/train.py line 75): the index
list iterated by the serialized `test_loader.pt`. -/
def saved_test_loader (perm : List ℕ) (f g : ℚ) : List ℕ :=
  dataloaders_indices perm f g .test

/-! ### train.py: best-loss bookkeeping of the epoch loop -/

/-- `x < best` where `best` may still be the initial `np.inf` (`none`). -/
def lt_best (x : ℚ) : Option ℚ → Bool
  | none => true
  | some y => decide (x < y)

/-- One iteration of the epoch loop's bookkeeping (src/train.py lines
117-120).  State is `(best_val_loss, best_training_loss)`; the epoch yields
`(training_loss, val_loss)`.  The source first runs
`if (val_loss < best_val_loss) or (not save_best_model_only): ...;
best_val_loss = val_loss` and then
`if training_loss < best_val_loss: best_training_loss = training_loss`,
comparing the training loss against the (just updated) best *validation*
loss. -/
def epoch_update (saveBestOnly : Bool) (best : Option ℚ × Option ℚ)
    (losses : ℚ × ℚ) : Option ℚ × Option ℚ :=
  let bestVal := if lt_best losses.2 best.1 || !saveBestOnly
    then some losses.2 else best.1
  let bestTrain := if lt_best losses.1 bestVal
    then some losses.1 else best.2
  (bestVal, bestTrain)

/-- The `(best_val_loss, best_training_loss)` pair reported to
`tensorboard.add_hparams` after the epoch loop (src/train.py lines 86-87 and
124-130), both starting at `np.inf` (`none`). -/
def final_best_losses (saveBestOnly : Bool) (epochs : List (ℚ × ℚ)) :
    Option ℚ × Option ℚ :=
  epochs.foldl (epoch_update saveBestOnly) (none, none)

/-- The minimum of a list of per-epoch losses (`none` for an empty run). -/
def min_loss (l : List ℚ) : Option ℚ :=
  l.foldl (fun acc x =>
    match acc with
    | none => some x
    | some y => some (min y x)) none

/-! ### train.py: module-load and dataset-construction failures -/

/-- The names bound at module level in src/nutrition5k/dataset.py: the
imported names of lines 1-12 and the class/function definitions of the rest
of the file.  There is no `Rescale`; the resize transform class is `Resize`. -/
def dataset_module_names : List String :=
  ["os", "random", "np", "Image", "asarray", "pd", "torch", "transform",
   "Dataset", "transforms", "functional",
   "Resize", "CenterCrop", "RandomHorizontalFlip", "RandomVerticalFlip",
   "ToTensor", "Normalize", "create_nutrition_df", "split_dataframe",
   "Nutrition5kDataset"]

/-- `from nutrition5k.dataset import Rescale, ToTensor, Nutrition5kDataset`
(src/train.py line 32). -/
def train_imports_from_dataset : List String :=
  ["Rescale", "ToTensor", "Nutrition5kDataset"]

/-- The import on src/train.py line 32 resolves only if every imported name
is bound in the dataset module. -/
def imports_ok : Bool :=
  train_imports_from_dataset.all (fun nm => dataset_module_names.contains nm)

/-- A Python parameter: its name and whether it carries a default value. -/
structure Param where
  name : String
  hasDefault : Bool
deriving DecidableEq, Repr

/-- The parameters of `Nutrition5kDataset.__init__` after the bound `self`
(src/nutrition5k/dataset.py line 132): `dish_calories` and `root_dir` are
required, `transform` defaults to `None`. -/
def nutrition5kDataset_init_params : List Param :=
  [⟨"dish_calories", false⟩, ⟨"root_dir", false⟩, ⟨"transform", true⟩]

/-- Python argument binding: a call with `npos` positional arguments and the
keyword arguments `kw` binds successfully iff every parameter is covered
positionally, by keyword, or by a default, there are not more positionals
than parameters, and every keyword names a parameter. -/
def call_binds (params : List Param) (npos : ℕ) (kw : List String) : Bool :=
  (params.enum.all fun p => decide (p.1 < npos) || p.2.hasDefault ||
    kw.contains p.2.name) &&
  decide (npos ≤ params.length) &&
  kw.all (fun k => (params.map Param.name).contains k)

/-- Outcome of launching src/train.py. -/
inductive TrainRunResult
  | importError
  | datasetTypeError
  | reachedEpochLoop
deriving DecidableEq, Repr

/-- Launching src/train.py: the module-level imports (line 32) run before the
`__main__` body, hence before `parse_args` (line 39), the config load
(line 41), the dataset construction
`Nutrition5kDataset(config['dataset_dir'], transform=...)` (lines 44-45,
one positional argument plus the `transform` keyword), and the epoch loop
(line 85). -/
def run_train_script : TrainRunResult :=
  if !imports_ok then .importError
  else if !call_binds nutrition5kDataset_init_params 1 ["transform"] then
    .datasetTypeError
  else .reachedEpochLoop

/-! ### dataset.py: create_nutrition_df -/

/-- An uncaught Python exception of `create_nutrition_df`: `IndexError` from
`parts[i]` on a short row, `ValueError` from `float(...)` on a non-numeric
field. -/
inductive PyError
  | indexError
  | valueError
deriving DecidableEq, Repr

/-- One row retained by `create_nutrition_df`: `dish_id = parts[0]`,
`calories = int(float(parts[1]))`, `mass = parts[2]` (kept as the raw
string). -/
structure DishRecord where
  dish_id : String
  calories : ℤ
  mass : String
deriving DecidableEq, Repr

/-- Python `parts[i]`: the element, or `IndexError` when out of range. -/
def pyIndex (parts : List String) (i : ℕ) : Except PyError String :=
  match parts.get? i with
  | some x => .ok x
  | none => .error .indexError

/-- Python `float(s)`: the parsed value, or `ValueError`.  The numeric parse
itself is the external `float` builtin, passed in as `pf`. -/
def pyFloat (pf : String → Option ℚ) (s : String) : Except PyError ℚ :=
  match pf s with
  | some q => .ok q
  | none => .error .valueError

/-- The body of the per-line loop of `create_nutrition_df`
(src/nutrition5k/dataset.py lines 101-114) on one row, already split on
commas.  `img_exists d` models `os.path.exists` on
`<root>/imagery/side_angles/<d>/camera_A/1.jpg`.  The existence check runs
first and `continue`s (skips) on a missing image; only then are
`parts[0]`, `int(float(parts[1]))` and `parts[2]` appended. -/
def create_row_step (img_exists : String → Bool) (pf : String → Option ℚ)
    (acc : List DishRecord) (parts : List String) :
    Except PyError (List DishRecord) :=
  match pyIndex parts 0 with
  | .error e => .error e
  | .ok dish_id =>
    if !img_exists dish_id then .ok acc
    else
      match pyIndex parts 1 with
      | .error e => .error e
      | .ok calStr =>
        match pyFloat pf calStr with
        | .error e => .error e
        | .ok cal =>
          match pyIndex parts 2 with
          | .error e => .error e
          | .ok massStr => .ok (acc ++ [⟨dish_id, pyInt cal, massStr⟩])

/-- `create_nutrition_df` (src/nutrition5k/dataset.py lines 98-116) over the
lines of both metadata CSV files (each line split on commas), building the
retained records in order; the first uncaught exception aborts the whole
construction. -/
def create_nutrition_df (img_exists : String → Bool) (pf : String → Option ℚ)
    (rows : List (List String)) : Except PyError (List DishRecord) :=
  rows.foldlM (create_row_step img_exists pf) []

/-- A filesystem on which every expected image exists. -/
def all_images_exist : String → Bool := fun _ => true

/-- A filesystem on which only dish `D1` has its image. -/
def only_d1_exists : String → Bool := fun s => s == "D1"

/-- A `float` builtin that parses no string (its result is never consulted in
the runs that use it). -/
def no_float : String → Option ℚ := fun _ => none

/-- A `float` builtin for the two calorie strings of the demonstration
metadata. -/
def demo_float : String → Option ℚ := fun s =>
  if s == "250.0" then some 250 else if s == "400.0" then some 400 else none

/-! ### dataset.py: the transform classes -/

/-- A numpy / torch image value: axis 0 indexes the outer dimension, then
axis 1, then axis 2; entries are the pixel values. -/
abbrev Image := List (List (List ℚ))

/-- The `sample` dict flowing through the transform chain:
`{'image': ..., 'mass': ..., 'calories': ...}` (mass and calories reduced to
their single `1x1` value). -/
structure Sample where
  image : Image
  mass : ℚ
  calories : ℚ
deriving DecidableEq, Repr

/-- `img[i][j]` with numpy-style in-range access (callers establish bounds). -/
def pixelAt (img : Image) (i j : ℕ) : List ℚ :=
  (img.getD i []).getD j []

/-- `img[i][j][k]` as a single value. -/
def entry (img : Image) (i j k : ℕ) : ℚ :=
  ((img.getD i []).getD j []).getD k 0

/-- `transform.resize(image, (new_h, new_w), preserve_range=True).astype('uint8')`
(src/nutrition5k/dataset.py line 31).  The resampling kernel lives in the
external skimage collaborator; it is modelled by its contract — a grid of
exactly `new_h × new_w` pixels, each sampled from the source image at the
rescaled coordinate, values preserved. -/
def resize_image (new_h new_w : ℕ) (img : Image) : Image :=
  (List.range new_h).map fun i =>
    (List.range new_w).map fun j =>
      pixelAt img (i * img.length / new_h) (j * (img.headD []).length / new_w)

/-- `functional.center_crop(image, output_size)`
(src/nutrition5k/dataset.py line 41), modelled by its contract: the centred
`size × size` region of the image. -/
def center_crop_image (size : ℕ) (img : Image) : Image :=
  ((img.drop ((img.length - size) / 2)).take size).map fun row =>
    (row.drop (((img.headD []).length - size) / 2)).take size

/-- Mirror along the vertical axis (reverse each row of pixels). -/
def hflip_image (img : Image) : Image :=
  img.map List.reverse

/-- Mirror along the horizontal axis (reverse the row order). -/
def vflip_image (img : Image) : Image :=
  img.reverse

/-- `image.transpose((2, 0, 1))` in `ToTensor.__call__`
(src/nutrition5k/dataset.py line 72): swap the colour axis to the front,
`(H, W, C) → (C, H, W)`. -/
def transpose_201 (img : Image) : Image :=
  (List.range ((img.headD []).headD []).length).map fun k =>
    img.map fun row => row.map fun px => px.getD k 0

/-- `(x - mean) / std` channel-wise, the contract of
`functional.normalize(image, means, stds)` on a channel-first tensor
(src/nutrition5k/dataset.py line 90). -/
def normalize_image (means stds : List ℚ) (img : Image) : Image :=
  List.zipWith (fun ch ms => ch.map fun row => row.map fun x => (x - ms.1) / ms.2)
    img (means.zip stds)

/-!
Each `*_call` function models one transform's `__call__` on a sample dict.
Python passes the dict by reference, and each transform except `ToTensor`
assigns into it (`sample['image'] = ...`) and returns it; the Lean value is
the pair `(returned sample, state of the caller's sample object after the
call)`, so an in-place transform yields the same sample in both components,
while `ToTensor` builds a fresh dict and leaves the argument untouched.
-/

/-- `Resize.__call__` (src/nutrition5k/dataset.py lines 28-33): assigns the
resized image into the sample dict and returns that same dict. -/
def Resize_call (output_size : ℕ × ℕ) (s : Sample) : Sample × Sample :=
  let s' := { s with image := resize_image output_size.1 output_size.2 s.image }
  (s', s')

/-- `CenterCrop.__call__` (src/nutrition5k/dataset.py lines 40-42): in-place
image assignment, returns the same dict. -/
def CenterCrop_call (size : ℕ) (s : Sample) : Sample × Sample :=
  let s' := { s with image := center_crop_image size s.image }
  (s', s')

/-- `RandomHorizontalFlip.__call__` (src/nutrition5k/dataset.py lines 50-52);
`coin` is the Bernoulli(p) draw made by the wrapped torchvision transform. -/
def RandomHorizontalFlip_call (coin : Bool) (s : Sample) : Sample × Sample :=
  let s' := { s with image := if coin then hflip_image s.image else s.image }
  (s', s')

/-- `RandomVerticalFlip.__call__` (src/nutrition5k/dataset.py lines 60-62). -/
def RandomVerticalFlip_call (coin : Bool) (s : Sample) : Sample × Sample :=
  let s' := { s with image := if coin then vflip_image s.image else s.image }
  (s', s')

/-- `ToTensor.__call__` (src/nutrition5k/dataset.py lines 68-75): builds and
returns a *new* dict with the transposed image and the mass and calorie
values converted to tensors; the argument dict is not assigned into. -/
def ToTensor_call (s : Sample) : Sample × Sample :=
  ({ image := transpose_201 s.image, mass := s.mass, calories := s.calories }, s)

/-- `Normalize.__call__` (src/nutrition5k/dataset.py lines 87-91): assigns
the scaled mass, the scaled calories and the normalized image into the
sample dict and returns that same dict. -/
def Normalize_call (means stds : List ℚ) (mass_max calories_max : ℚ)
    (s : Sample) : Sample × Sample :=
  let s' : Sample :=
    { image := normalize_image means stds s.image,
      mass := s.mass / mass_max,
      calories := s.calories / calories_max }
  (s', s')

/-! ### transforms.Compose: pipeline construction -/

/-- The transform classes available to a pipeline. -/
inductive TransformTag
  | resize
  | centerCrop
  | randomHorizontalFlip
  | randomVerticalFlip
  | toTensor
  | normalize
deriving DecidableEq, Repr

/-- The ordering error the spec's design calls for; nothing in the
repository defines or raises it. -/
inductive PipelineError
  | pipelineOrderError
deriving DecidableEq, Repr

/-- `transforms.Compose([...])` as called on src/train.py lines 44-45: the
constructor stores the transform list as given; no validation of any kind is
performed on it. -/
def compose_init (ts : List TransformTag) :
    Except PipelineError (List TransformTag) :=
  .ok ts

/-- Whether every `Normalize` in the pipeline is preceded by a `ToTensor`. -/
def order_check : Bool → List TransformTag → Bool
  | _, [] => true
  | seenToTensor, t :: rest =>
    if t = TransformTag.normalize then
      seenToTensor && order_check seenToTensor rest
    else
      order_check (seenToTensor || t = TransformTag.toTensor) rest

/-- `ts` is well ordered when ToTensor precedes every Normalize. -/
def toTensor_precedes_normalize (ts : List TransformTag) : Bool :=
  order_check false ts

/-! ### Image shapes -/

/-- `img` is a `d0 × d1 × d2` array: `d0` outer entries, each of `d1`
entries, each of `d2` values. -/
def HasShape (img : Image) (d0 d1 d2 : ℕ) : Prop :=
  img.length = d0 ∧ ∀ a ∈ img, a.length = d1 ∧ ∀ b ∈ a, b.length = d2

instance (img : Image) (d0 d1 d2 : ℕ) : Decidable (HasShape img d0 d1 d2) := by
  unfold HasShape
  infer_instance

/-- The `[Rescale((299, 299)) → ToTensor()]`-style chain of train.py lines
44-45, applied functionally with arbitrary target dimensions: the resize
call's returned sample fed into ToTensor. -/
def apply_resize_totensor (th tw : ℕ) (s : Sample) : Sample :=
  (ToTensor_call ((Resize_call (th, tw) s).1)).1

lemma pyInt_nonneg {q : ℚ} (h : 0 ≤ q) : pyInt q = ⌊q⌋ := by
  simp [pyInt, h]

lemma split_concat (index : List ℕ) (ftrain fval : ℚ)
    (hf : 0 ≤ ftrain) (hg : 0 ≤ fval) :
    (split_dataframe index ftrain fval).1 ++
      (split_dataframe index ftrain fval).2.1 ++
      (split_dataframe index ftrain fval).2.2 = index := by
  unfold split_dataframe val_end train_end
  set n : ℚ := (index.length : ℚ) with hn
  have hn0 : (0:ℚ) ≤ n := by positivity
  have ha : pyInt (n * ftrain) = ⌊n * ftrain⌋ := pyInt_nonneg (by positivity)
  have hb : pyInt (n * fval) = ⌊n * fval⌋ := pyInt_nonneg (by positivity)
  have hfl : (0:ℤ) ≤ ⌊n * ftrain⌋ := by positivity
  have hgl : (0:ℤ) ≤ ⌊n * fval⌋ := by positivity
  rw [ha, hb]
  set a := (⌊n * ftrain⌋).toNat with hadef
  set b := (⌊n * ftrain⌋ + ⌊n * fval⌋).toNat with hbdef
  have hab : a ≤ b := by omega
  have h1 : (index.take b).take a = index.take a := by
    rw [List.take_take, Nat.min_eq_left hab]
  calc index.take a ++ (index.take b).drop a ++ index.drop b
      = (index.take b).take a ++ (index.take b).drop a ++ index.drop b := by
        rw [h1]
    _ = index.take b ++ index.drop b := by rw [List.take_append_drop]
    _ = index := List.take_append_drop b index

lemma split_floor_sum_le (index : List ℕ) (f g : ℚ)
    (hf : 0 ≤ f) (hg : 0 ≤ g) (hfg : f + g ≤ 1) :
    ⌊(index.length : ℚ) * f⌋ + ⌊(index.length : ℚ) * g⌋ ≤ index.length := by
  set n : ℚ := (index.length : ℚ) with hn
  have hn0 : (0:ℚ) ≤ n := by positivity
  have h1 : (↑(⌊n * f⌋ + ⌊n * g⌋) : ℚ) ≤ n * f + n * g := by
    push_cast
    exact add_le_add (Int.floor_le _) (Int.floor_le _)
  have h2 : n * f + n * g ≤ n := by
    calc n * f + n * g = n * (f + g) := by ring
      _ ≤ n * 1 := mul_le_mul_of_nonneg_left hfg hn0
      _ = n := mul_one n
  have h3 : (↑(⌊n * f⌋ + ⌊n * g⌋) : ℚ) ≤ (index.length : ℚ) := le_trans h1 h2
  exact_mod_cast h3

lemma split_lengths (index : List ℕ) (f g : ℚ)
    (hf : 0 ≤ f) (hg : 0 ≤ g) (hfg : f + g ≤ 1) :
    (split_dataframe index f g).1.length = (pyInt ((index.length : ℚ) * f)).toNat ∧
    (split_dataframe index f g).2.1.length = (pyInt ((index.length : ℚ) * g)).toNat ∧
    (split_dataframe index f g).2.2.length =
      index.length - (pyInt ((index.length : ℚ) * f)).toNat
        - (pyInt ((index.length : ℚ) * g)).toNat := by
  unfold split_dataframe val_end train_end
  set n : ℚ := (index.length : ℚ) with hn
  have ha : pyInt (n * f) = ⌊n * f⌋ := pyInt_nonneg (by positivity)
  have hb : pyInt (n * g) = ⌊n * g⌋ := pyInt_nonneg (by positivity)
  have hfl : (0:ℤ) ≤ ⌊n * f⌋ := by positivity
  have hgl : (0:ℤ) ≤ ⌊n * g⌋ := by positivity
  have hsum : ⌊n * f⌋ + ⌊n * g⌋ ≤ index.length :=
    split_floor_sum_le index f g hf hg hfg
  rw [ha, hb]
  simp only [List.length_drop, List.length_take]
  omega

/-- C4: for every dataset index (with pandas' unique row labels) and split
fractions with `train + validation ≤ 1`, `split_dataframe` returns three
sublists whose concatenation is the full index, whose lengths sum to the
number of records, and which are pairwise disjoint: no record appears in more
than one split. -/
theorem split_dataframe_partition (index : List ℕ) (f g : ℚ)
    (hf : 0 ≤ f) (hg : 0 ≤ g) (hfg : f + g ≤ 1) (hnd : index.Nodup) :
    (split_dataframe index f g).1 ++ (split_dataframe index f g).2.1 ++
      (split_dataframe index f g).2.2 = index ∧
    (split_dataframe index f g).1.length + (split_dataframe index f g).2.1.length +
      (split_dataframe index f g).2.2.length = index.length ∧
    (split_dataframe index f g).1.Disjoint (split_dataframe index f g).2.1 ∧
    (split_dataframe index f g).1.Disjoint (split_dataframe index f g).2.2 ∧
    (split_dataframe index f g).2.1.Disjoint (split_dataframe index f g).2.2 := by
  have hc := split_concat index f g hf hg
  set t := (split_dataframe index f g).1
  set v := (split_dataframe index f g).2.1
  set te := (split_dataframe index f g).2.2
  have hlen : t.length + v.length + te.length = index.length := by
    have := congrArg List.length hc
    simpa [List.length_append, Nat.add_assoc] using this
  have hnd2 : (t ++ v ++ te).Nodup := hc ▸ hnd
  rw [List.nodup_append] at hnd2
  obtain ⟨hnd3, _, hdis1⟩ := hnd2
  rw [List.nodup_append] at hnd3
  obtain ⟨_, _, htv⟩ := hnd3
  rw [List.disjoint_append_left] at hdis1
  exact ⟨hc, hlen, htv, hdis1.1, hdis1.2⟩

/-- Witness for C4 at a concrete shuffled index of five records with
fractions 1/2 and 3/10. -/
theorem split_dataframe_partition_witness :
    ((0:ℚ) ≤ 1/2 ∧ (0:ℚ) ≤ 3/10 ∧ (1/2 : ℚ) + 3/10 ≤ 1 ∧
      ([4, 0, 3, 1, 2] : List ℕ).Nodup) ∧
    ((split_dataframe [4, 0, 3, 1, 2] (1/2) (3/10)).1 ++
        (split_dataframe [4, 0, 3, 1, 2] (1/2) (3/10)).2.1 ++
        (split_dataframe [4, 0, 3, 1, 2] (1/2) (3/10)).2.2 = [4, 0, 3, 1, 2] ∧
      (split_dataframe [4, 0, 3, 1, 2] (1/2) (3/10)).1.length +
        (split_dataframe [4, 0, 3, 1, 2] (1/2) (3/10)).2.1.length +
        (split_dataframe [4, 0, 3, 1, 2] (1/2) (3/10)).2.2.length = 5 ∧
      (split_dataframe [4, 0, 3, 1, 2] (1/2) (3/10)).1.Disjoint
        (split_dataframe [4, 0, 3, 1, 2] (1/2) (3/10)).2.1 ∧
      (split_dataframe [4, 0, 3, 1, 2] (1/2) (3/10)).1.Disjoint
        (split_dataframe [4, 0, 3, 1, 2] (1/2) (3/10)).2.2 ∧
      (split_dataframe [4, 0, 3, 1, 2] (1/2) (3/10)).2.1.Disjoint
        (split_dataframe [4, 0, 3, 1, 2] (1/2) (3/10)).2.2) :=
  ⟨⟨by norm_num, by norm_num, by norm_num, by decide⟩,
    split_dataframe_partition [4, 0, 3, 1, 2] (1/2) (3/10)
      (by norm_num) (by norm_num) (by norm_num) (by decide)⟩

/-- C5 counterexample: the split sizes use Python `int` truncation, not
rounding.  With 3 records and train fraction 3/5, the train split receives
`int(3 * 0.6) = 1` record, while `round(3 * 0.6) = 2`. -/
theorem split_dataframe_round_counterexample :
    (split_dataframe [0, 1, 2] (3/5) 0).1.length = 1 ∧
    round ((([0, 1, 2] : List ℕ).length : ℚ) * (3/5)) = 2 ∧ (1 : ℕ) ≠ 2 := by
  refine ⟨?_, ?_, by decide⟩
  · norm_num [split_dataframe, train_end, val_end, pyInt]
  · norm_num [round_eq]

/-- C5 amended: the train split receives `int(n*f)` (truncation) records and
the validation split `int(n*g)` records of the shuffled index, the remainder
going to test; in particular with 2 records and fractions 1/2 each, train and
validation receive exactly one record and test none. -/
theorem split_dataframe_sizes (index : List ℕ) (f g : ℚ)
    (hf : 0 ≤ f) (hg : 0 ≤ g) (hfg : f + g ≤ 1) :
    ((split_dataframe index f g).1.length = (pyInt ((index.length : ℚ) * f)).toNat ∧
      (split_dataframe index f g).2.1.length = (pyInt ((index.length : ℚ) * g)).toNat ∧
      (split_dataframe index f g).2.2.length =
        index.length - (pyInt ((index.length : ℚ) * f)).toNat
          - (pyInt ((index.length : ℚ) * g)).toNat) ∧
    ((split_dataframe [0, 1] (1/2) (1/2)).1.length = 1 ∧
      (split_dataframe [0, 1] (1/2) (1/2)).2.1.length = 1 ∧
      (split_dataframe [0, 1] (1/2) (1/2)).2.2.length = 0) :=
  ⟨split_lengths index f g hf hg hfg,
    by norm_num [split_dataframe, train_end, val_end, pyInt],
    by norm_num [split_dataframe, train_end, val_end, pyInt]; rfl,
    by norm_num [split_dataframe, train_end, val_end, pyInt]⟩

/-- Witness for C5's amended theorem at 3 records, fractions 3/5 and 1/5. -/
theorem split_dataframe_sizes_witness :
    ((0:ℚ) ≤ 3/5 ∧ (0:ℚ) ≤ 1/5 ∧ (3/5 : ℚ) + 1/5 ≤ 1) ∧
    (((split_dataframe [0, 1, 2] (3/5) (1/5)).1.length =
        (pyInt ((([0, 1, 2] : List ℕ).length : ℚ) * (3/5))).toNat ∧
      (split_dataframe [0, 1, 2] (3/5) (1/5)).2.1.length =
        (pyInt ((([0, 1, 2] : List ℕ).length : ℚ) * (1/5))).toNat ∧
      (split_dataframe [0, 1, 2] (3/5) (1/5)).2.2.length =
        ([0, 1, 2] : List ℕ).length
          - (pyInt ((([0, 1, 2] : List ℕ).length : ℚ) * (3/5))).toNat
          - (pyInt ((([0, 1, 2] : List ℕ).length : ℚ) * (1/5))).toNat) ∧
    ((split_dataframe [0, 1] (1/2) (1/2)).1.length = 1 ∧
      (split_dataframe [0, 1] (1/2) (1/2)).2.1.length = 1 ∧
      (split_dataframe [0, 1] (1/2) (1/2)).2.2.length = 0)) :=
  ⟨⟨by norm_num, by norm_num, by norm_num⟩,
    split_dataframe_sizes [0, 1, 2] (3/5) (1/5)
      (by norm_num) (by norm_num) (by norm_num)⟩

/-- C1: the serialized `test_loader.pt` iterates the validation split, not the
test split.  In general the saved loader equals the `'val'` loader, and on a
concrete run with 4 records, fractions 1/2 and 1/4, and identity permutation,
the saved loader iterates `[2]` while the test split is `[3]`. -/
theorem saved_test_loader_is_val_split :
    (∀ (perm : List ℕ) (f g : ℚ),
      saved_test_loader perm f g = dataloaders_indices perm f g .val) ∧
    saved_test_loader [0, 1, 2, 3] (1/2) (1/4) = [2] ∧
    (random_split3 [0, 1, 2, 3] (train_size 4 (1/2)) (val_size 4 (1/4))).2.2 = [3] ∧
    saved_test_loader [0, 1, 2, 3] (1/2) (1/4) ≠
      (random_split3 [0, 1, 2, 3] (train_size 4 (1/2)) (val_size 4 (1/4))).2.2 := by
  refine ⟨fun perm f g => rfl, ?_, ?_, ?_⟩
  · norm_num [saved_test_loader, dataloaders_indices, random_split3,
      train_size, val_size, pyInt]
    decide
  · norm_num [random_split3, train_size, val_size, pyInt]
    decide
  · norm_num [saved_test_loader, dataloaders_indices, random_split3,
      train_size, val_size, pyInt]
    decide

/-- C2 fails on the code: with `save_best_model_only = true` and per-epoch
`(training, validation)` losses `[(2,1), (1,2)]`, the reported best training
loss stays at infinity (`none`) although the minimum training loss is 1,
because the source compares the training loss against the best *validation*
loss; and with `save_best_model_only = false` and losses `[(0,1), (0,2)]`,
the reported best validation loss is 2, not the minimum 1, because
`best_val_loss` is overwritten unconditionally. -/
theorem best_loss_tracking_bug :
    final_best_losses true [(2, 1), (1, 2)] = (some 1, none) ∧
    min_loss ([((2:ℚ), (1:ℚ)), (1, 2)].map Prod.fst) = some 1 ∧
    (final_best_losses true [(2, 1), (1, 2)]).2 ≠
      min_loss ([((2:ℚ), (1:ℚ)), (1, 2)].map Prod.fst) ∧
    final_best_losses false [(0, 1), (0, 2)] = (some 2, some 0) ∧
    min_loss ([((0:ℚ), (1:ℚ)), (0, 2)].map Prod.snd) = some 1 ∧
    (final_best_losses false [(0, 1), (0, 2)]).1 ≠
      min_loss ([((0:ℚ), (1:ℚ)), (0, 2)].map Prod.snd) := by
  refine ⟨?_, ?_, ?_, ?_, ?_, ?_⟩ <;>
    simp [final_best_losses, epoch_update, min_loss, lt_best]

/-- C3: launching the training script fails at the import, before
configuration parsing or the epoch loop: `Rescale` is imported but the
dataset module binds no such name (the transform class is `Resize`); and
even the later dataset construction could not bind, since the required
`root_dir` parameter receives neither a positional nor a keyword argument. -/
theorem run_train_script_import_error :
    run_train_script = .importError ∧
    dataset_module_names.contains "Rescale" = false ∧
    train_imports_from_dataset.contains "Rescale" = true ∧
    dataset_module_names.contains "Resize" = true ∧
    call_binds nutrition5kDataset_init_params 1 ["transform"] = false := by
  refine ⟨?_, by decide, by decide, by decide, by decide⟩
  simp [run_train_script, imports_ok, train_imports_from_dataset,
    dataset_module_names]

lemma create_row_step_preserves {ex : String → Bool} {pf : String → Option ℚ}
    {acc : List DishRecord} {parts : List String} {acc' : List DishRecord}
    (hstep : create_row_step ex pf acc parts = .ok acc')
    (hacc : ∀ r ∈ acc, ex r.dish_id = true) :
    ∀ r ∈ acc', ex r.dish_id = true := by
  unfold create_row_step at hstep
  split at hstep
  · exact absurd hstep (by simp)
  rename_i dish_id h0
  split at hstep
  · obtain rfl : acc = acc' := by simpa using hstep
    exact hacc
  rename_i hex
  split at hstep
  · exact absurd hstep (by simp)
  rename_i calStr h1
  split at hstep
  · exact absurd hstep (by simp)
  rename_i cal h2
  split at hstep
  · exact absurd hstep (by simp)
  rename_i massStr h3
  obtain rfl : acc ++ [⟨dish_id, pyInt cal, massStr⟩] = acc' := by
    simpa using hstep
  have hexT : ex dish_id = true := by
    simpa using hex
  intro r hr
  rcases List.mem_append.mp hr with hr | hr
  · exact hacc r hr
  · simp only [List.mem_singleton] at hr
    subst hr
    exact hexT

lemma create_df_preserves (ex : String → Bool) (pf : String → Option ℚ) :
    ∀ (rows : List (List String)) (acc df : List DishRecord),
      rows.foldlM (create_row_step ex pf) acc = .ok df →
      (∀ r ∈ acc, ex r.dish_id = true) →
      ∀ r ∈ df, ex r.dish_id = true := by
  intro rows
  induction rows with
  | nil =>
    intro acc df h hacc
    simp only [List.foldlM_nil] at h
    obtain rfl : acc = df := Except.ok.inj h
    exact hacc
  | cons row rest ih =>
    intro acc df h hacc
    rw [List.foldlM_cons] at h
    rcases hs : create_row_step ex pf acc row with e | mid <;>
      rw [hs] at h
    · rw [show ((Except.error e : Except PyError (List DishRecord)) >>= fun b =>
          rest.foldlM (create_row_step ex pf) b) =
          Except.error e from rfl] at h
      exact Except.noConfusion h
    · rw [show ((Except.ok mid : Except PyError (List DishRecord)) >>= fun b =>
          rest.foldlM (create_row_step ex pf) b) =
          rest.foldlM (create_row_step ex pf) mid from rfl] at h
      exact ih mid df h (create_row_step_preserves hs hacc)

/-- C6 counterexample: a malformed metadata row with a single column whose
image exists makes `create_nutrition_df` abort with an uncaught `IndexError`
from `parts[1]` — neither a `ParseError` nor a skipped row (no `ParseError`
exists anywhere in the repository). -/
theorem malformed_row_uncaught_index_error :
    create_nutrition_df all_images_exist no_float [["D1"]] =
      .error PyError.indexError := by
  rfl

/-- C6 amended: a malformed row (fewer than three columns) is silently
skipped when its image is missing, makes index construction abort with an
uncaught `IndexError` or `ValueError` (not a `ParseError`) when its image
exists, and in every case contributes no retained record. -/
theorem malformed_row_behavior (ex : String → Bool) (pf : String → Option ℚ)
    (acc : List DishRecord) (parts : List String) (h : parts.length < 3) :
    (∀ d, parts.get? 0 = some d → ex d = false →
      create_row_step ex pf acc parts = .ok acc) ∧
    (∀ d, parts.get? 0 = some d → ex d = true →
      create_row_step ex pf acc parts = .error PyError.indexError ∨
      create_row_step ex pf acc parts = .error PyError.valueError) ∧
    (∀ acc', create_row_step ex pf acc parts = .ok acc' → acc' = acc) := by
  match parts, h with
  | [], _ =>
    refine ⟨fun d hd => by simp at hd, fun d hd => by simp at hd, ?_⟩
    intro acc' hstep
    simp [create_row_step, pyIndex] at hstep
  | [a], _ =>
    refine ⟨?_, ?_, ?_⟩
    · intro d hd hex
      obtain rfl : a = d := by simpa using hd
      simp [create_row_step, pyIndex, hex]
    · intro d hd hex
      obtain rfl : a = d := by simpa using hd
      left
      simp [create_row_step, pyIndex, hex]
    · intro acc' hstep
      by_cases hex : ex a
      · simp [create_row_step, pyIndex, hex] at hstep
      · simp [create_row_step, pyIndex, hex] at hstep
        exact hstep.symm
  | [a, b], _ =>
    refine ⟨?_, ?_, ?_⟩
    · intro d hd hex
      obtain rfl : a = d := by simpa using hd
      simp [create_row_step, pyIndex, hex]
    · intro d hd hex
      obtain rfl : a = d := by simpa using hd
      rcases hpf : pf b with _ | q
      · right
        simp [create_row_step, pyIndex, pyFloat, hex, hpf]
      · left
        simp [create_row_step, pyIndex, pyFloat, hex, hpf]
    · intro acc' hstep
      by_cases hex : ex a
      · rcases hpf : pf b with _ | q <;>
          simp [create_row_step, pyIndex, pyFloat, hex, hpf] at hstep
      · simp [create_row_step, pyIndex, hex] at hstep
        exact hstep.symm

/-- Witness for C6's amended theorem on the one-column row `["D1"]` with
every image present. -/
theorem malformed_row_behavior_witness :
    (["D1"] : List String).length < 3 ∧
    ((∀ d, (["D1"] : List String).get? 0 = some d → all_images_exist d = false →
        create_row_step all_images_exist no_float [] ["D1"] = .ok []) ∧
      (∀ d, (["D1"] : List String).get? 0 = some d → all_images_exist d = true →
        create_row_step all_images_exist no_float [] ["D1"] =
          .error PyError.indexError ∨
        create_row_step all_images_exist no_float [] ["D1"] =
          .error PyError.valueError) ∧
      (∀ acc', create_row_step all_images_exist no_float [] ["D1"] = .ok acc' →
        acc' = [])) :=
  ⟨by decide, malformed_row_behavior all_images_exist no_float [] ["D1"] (by decide)⟩

/-- C7: a metadata row whose expected image
`imagery/side_angles/<dish_id>/camera_A/1.jpg` is missing is skipped without
raising (the loop `continue`s before touching the remaining columns), and in
every successfully built index each retained record's image exists. -/
theorem missing_image_row_excluded (ex : String → Bool) (pf : String → Option ℚ)
    (parts : List String) (d : String) (acc : List DishRecord)
    (rows : List (List String)) (df : List DishRecord)
    (hd : parts.get? 0 = some d) (hex : ex d = false)
    (hdf : create_nutrition_df ex pf rows = .ok df) :
    create_row_step ex pf acc parts = .ok acc ∧
    ∀ r ∈ df, ex r.dish_id = true := by
  constructor
  · have hd' : parts[0]? = some d := by
      rw [← List.get?_eq_getElem?]
      exact hd
    simp [create_row_step, pyIndex, hd', hex]
  · exact create_df_preserves ex pf rows [] df hdf (by simp)

/-- Witness for C7: dish `D2`'s image is missing, so its row is skipped, and
the index built from the two-dish metadata retains only `D1`, whose image
exists. -/
theorem missing_image_row_excluded_witness :
    ((["D2", "400.0", "150.0"] : List String).get? 0 = some "D2" ∧
      only_d1_exists "D2" = false ∧
      create_nutrition_df only_d1_exists demo_float
        [["D1", "250.0", "100.5"], ["D2", "400.0", "150.0"]] =
        .ok [⟨"D1", 250, "100.5"⟩]) ∧
    (create_row_step only_d1_exists demo_float [] ["D2", "400.0", "150.0"] =
        .ok [] ∧
      ∀ r ∈ ([⟨"D1", 250, "100.5"⟩] : List DishRecord),
        only_d1_exists r.dish_id = true) :=
  ⟨⟨by decide, by decide, by
      have h250 : pyInt (250 : ℚ) = 250 := by norm_num [pyInt]
      simp +decide [create_nutrition_df, List.foldlM, create_row_step,
        pyIndex, pyFloat, only_d1_exists, demo_float, h250]
      rfl⟩,
    missing_image_row_excluded only_d1_exists demo_float
      ["D2", "400.0", "150.0"] "D2" []
      [["D1", "250.0", "100.5"], ["D2", "400.0", "150.0"]]
      [⟨"D1", 250, "100.5"⟩] (by decide) (by decide)
      (by
        have h250 : pyInt (250 : ℚ) = 250 := by norm_num [pyInt]
        simp +decide [create_nutrition_df, List.foldlM, create_row_step,
          pyIndex, pyFloat, only_d1_exists, demo_float, h250]
        rfl)⟩

/-- C8 counterexample: `Normalize.__call__` with `mass_max = 2` on a sample
with mass 1 leaves the caller's sample object with mass 1/2: the input
sample's fields do not survive the call unchanged. -/
theorem normalize_mutates_input :
    (Normalize_call [0] [1] 2 1 ⟨[[[1]]], 1, 1⟩).2 ≠
      (⟨[[[1]]], 1, 1⟩ : Sample) := by
  intro h
  have hm := congrArg Sample.mass h
  norm_num [Normalize_call] at hm

/-- C8 amended: every transform computes its result purely from its
arguments, but Resize, CenterCrop, the two flips and Normalize mutate the
sample dict in place and return it — after the call the caller's object *is*
the returned sample — while ToTensor alone builds a fresh sample and leaves
its input unchanged. -/
theorem transforms_mutate_in_place (hw : ℕ × ℕ) (size : ℕ) (coinH coinV : Bool)
    (means stds : List ℚ) (mmax cmax : ℚ) (s : Sample) :
    (Resize_call hw s).2 = (Resize_call hw s).1 ∧
    (CenterCrop_call size s).2 = (CenterCrop_call size s).1 ∧
    (RandomHorizontalFlip_call coinH s).2 = (RandomHorizontalFlip_call coinH s).1 ∧
    (RandomVerticalFlip_call coinV s).2 = (RandomVerticalFlip_call coinV s).1 ∧
    (Normalize_call means stds mmax cmax s).2 =
      (Normalize_call means stds mmax cmax s).1 ∧
    (ToTensor_call s).2 = s ∧
    (Normalize_call means stds mmax cmax s).1.mass = s.mass / mmax ∧
    (Normalize_call means stds mmax cmax s).1.calories = s.calories / cmax :=
  ⟨rfl, rfl, rfl, rfl, rfl, rfl, rfl, rfl⟩

/-- C9 counterexample: the misordered pipeline `[Normalize, ToTensor]` is
constructed successfully — no `PipelineOrderError` is raised at construction
time (or ever: the repository defines no such error). -/
theorem misordered_pipeline_constructs :
    compose_init [TransformTag.normalize, TransformTag.toTensor] =
      .ok [TransformTag.normalize, TransformTag.toTensor] ∧
    toTensor_precedes_normalize
      [TransformTag.normalize, TransformTag.toTensor] = false := by
  exact ⟨rfl, rfl⟩

/-- C9 amended: pipeline construction performs no ordering validation and
never fails — every transform list, the misordered ones included, is
accepted as given, so a misordered pipeline can only misbehave later, when a
sample is processed. -/
theorem compose_init_never_fails (ts : List TransformTag) :
    compose_init ts = .ok ts ∧ ∀ e, compose_init ts ≠ .error e :=
  ⟨rfl, fun _ h => Except.noConfusion h⟩

lemma getD_mem {α : Type} (l : List α) (i : ℕ) (d : α) (h : i < l.length) :
    l.getD i d ∈ l := by
  rw [List.getD_eq_getElem l d h]
  exact List.getElem_mem h

lemma pixelAt_length {img : Image} {h w c : ℕ} (hs : HasShape img h w c)
    {i j : ℕ} (hi : i < h) (hj : j < w) : (pixelAt img i j).length = c := by
  obtain ⟨hlen, hrows⟩ := hs
  have hib : i < img.length := by omega
  have hrow := getD_mem img i [] hib
  obtain ⟨hrl, hpx⟩ := hrows _ hrow
  have hjb : j < (img.getD i []).length := by omega
  exact hpx _ (getD_mem (img.getD i []) j [] hjb)

lemma first_pixel_length {img : Image} {h w c : ℕ}
    (hs : HasShape img h w c) (hh : 0 < h) (hw : 0 < w) :
    ((img.headD []).headD []).length = c := by
  obtain ⟨hlen, hrows⟩ := hs
  rcases img with _ | ⟨a, rest⟩
  · simp at hlen
    omega
  · obtain ⟨ha, hpx⟩ := hrows a (by simp)
    rcases a with _ | ⟨p, ps⟩
    · simp at ha
      omega
    · exact hpx p (by simp)

lemma first_row_length {img : Image} {h w c : ℕ}
    (hs : HasShape img h w c) (hh : 0 < h) :
    (img.headD []).length = w := by
  obtain ⟨hlen, hrows⟩ := hs
  rcases img with _ | ⟨a, rest⟩
  · simp at hlen
    omega
  · exact (hrows a (by simp)).1

lemma resize_image_shape (th tw : ℕ) {img : Image} {h w c : ℕ}
    (hs : HasShape img h w c) (hh : 0 < h) (hw : 0 < w) :
    HasShape (resize_image th tw img) th tw c := by
  refine ⟨by simp [resize_image], ?_⟩
  intro row hrow
  simp only [resize_image, List.mem_map, List.mem_range] at hrow
  obtain ⟨i, hi, rfl⟩ := hrow
  refine ⟨by simp, ?_⟩
  intro px hpx
  simp only [List.mem_map, List.mem_range] at hpx
  obtain ⟨j, hj, rfl⟩ := hpx
  have hth : 0 < th := Nat.pos_of_ne_zero (by omega)
  have htw : 0 < tw := Nat.pos_of_ne_zero (by omega)
  apply pixelAt_length hs
  · rw [hs.1]
    exact (Nat.div_lt_iff_lt_mul hth).mpr
      (lt_of_lt_of_le (mul_lt_mul_of_pos_right hi hh) (le_of_eq (mul_comm th h)))
  · rw [first_row_length hs hh]
    exact (Nat.div_lt_iff_lt_mul htw).mpr
      (lt_of_lt_of_le (mul_lt_mul_of_pos_right hj hw) (le_of_eq (mul_comm tw w)))

lemma transpose_201_shape {img : Image} {h w c : ℕ}
    (hs : HasShape img h w c) (hh : 0 < h) (hw : 0 < w) :
    HasShape (transpose_201 img) c h w := by
  refine ⟨?_, ?_⟩
  · simp only [transpose_201, List.length_map, List.length_range]
    exact first_pixel_length hs hh hw
  intro plane hplane
  simp only [transpose_201, List.mem_map, List.mem_range] at hplane
  obtain ⟨k, hk, rfl⟩ := hplane
  refine ⟨by simp [hs.1], ?_⟩
  intro row hrow
  simp only [List.mem_map] at hrow
  obtain ⟨r, hr, rfl⟩ := hrow
  simp [(hs.2 r hr).1]

lemma transpose_201_entry {img : Image} {h w c : ℕ}
    (hs : HasShape img h w c) (hh : 0 < h) (hw : 0 < w)
    {k i j : ℕ} (hk : k < c) (hi : i < h) (hj : j < w) :
    entry (transpose_201 img) k i j = entry img i j k := by
  have hib : i < img.length := by
    rw [hs.1]
    exact hi
  have hjw : j < img[i].length := by
    rw [(hs.2 _ (List.getElem_mem hib)).1]
    exact hj
  unfold entry
  have hT : (transpose_201 img).getD k [] =
      img.map fun row => row.map fun px => px.getD k 0 := by
    have hkT : k < ((List.range ((img.headD []).headD []).length).map
        fun k => img.map fun row => row.map fun px => px.getD k 0).length := by
      simp only [List.length_map, List.length_range]
      rw [first_pixel_length hs hh hw]
      exact hk
    unfold transpose_201
    rw [List.getD_eq_getElem _ [] hkT, List.getElem_map, List.getElem_range]
  rw [hT]
  rw [List.getD_eq_getElem (img.map fun row => row.map fun px => px.getD k 0)
      [] (by simpa using hib), List.getElem_map]
  rw [List.getD_eq_getElem (img[i].map fun px => px.getD k 0) 0
      (by simpa using hjw), List.getElem_map]
  rw [List.getD_eq_getElem img [] hib, List.getD_eq_getElem img[i] [] hjw]

/-- C10: for every valid `h × w × 3` image (h, w positive) and positive
target dimensions, Resize followed by ToTensor yields an image of exactly
shape `(3, th, tw)`; ToTensor transposes the axes — entry `(k, i, j)` of the
result is entry `(i, j, k)` of the resized image — and carries mass and
calories through as tensor values. -/
theorem resize_totensor_shape (img : Image) (m cal : ℚ) (h w th tw : ℕ)
    (hs : HasShape img h w 3) (hh : 0 < h) (hw0 : 0 < w)
    (hth : 0 < th) (htw : 0 < tw) :
    HasShape (apply_resize_totensor th tw ⟨img, m, cal⟩).image 3 th tw ∧
    (apply_resize_totensor th tw ⟨img, m, cal⟩).mass = m ∧
    (apply_resize_totensor th tw ⟨img, m, cal⟩).calories = cal ∧
    (∀ k i j, k < 3 → i < th → j < tw →
      entry (apply_resize_totensor th tw ⟨img, m, cal⟩).image k i j =
        entry (resize_image th tw img) i j k) := by
  have hr : HasShape (resize_image th tw img) th tw 3 :=
    resize_image_shape th tw hs hh hw0
  refine ⟨transpose_201_shape hr hth htw, rfl, rfl, ?_⟩
  intro k i j hk hi hj
  exact transpose_201_entry hr hth htw hk hi hj

/-- Witness for C10 on a concrete 1 × 2 × 3 image resized to 2 × 2. -/
theorem resize_totensor_shape_witness :
    (HasShape [[[1, 2, 3], [4, 5, 6]]] 1 2 3 ∧
      0 < 1 ∧ 0 < 2 ∧ 0 < 2 ∧ 0 < 2) ∧
    (HasShape (apply_resize_totensor 2 2 ⟨[[[1, 2, 3], [4, 5, 6]]], 7, 8⟩).image
        3 2 2 ∧
      (apply_resize_totensor 2 2 ⟨[[[1, 2, 3], [4, 5, 6]]], 7, 8⟩).mass = 7 ∧
      (apply_resize_totensor 2 2 ⟨[[[1, 2, 3], [4, 5, 6]]], 7, 8⟩).calories = 8 ∧
      (∀ k i j, k < 3 → i < 2 → j < 2 →
        entry (apply_resize_totensor 2 2 ⟨[[[1, 2, 3], [4, 5, 6]]], 7, 8⟩).image
            k i j =
          entry (resize_image 2 2 [[[1, 2, 3], [4, 5, 6]]]) i j k)) :=
  ⟨⟨by decide, by decide, by decide, by decide, by decide⟩,
    resize_totensor_shape [[[1, 2, 3], [4, 5, 6]]] 7 8 1 2 2 2
      (by decide) (by decide) (by decide) (by decide) (by decide)⟩

end Nutrition5k
